import Mathlib

/-!
Verification of the research assistant workflow engine.

This file gives a shallow embedding of the routing, state merging, report
finalization, analyst creation, interview routing and search nodes of the
research assistant repository, and proves properties about them.

Messages are modelled by a small inductive type mirroring the LangChain
message classes used by the code: human messages, AI messages with an
optional name tag, and system messages.  LLM and search collaborators are
modelled as function parameters returning an Except value, since the code
treats them as call-or-raise black boxes.
-/

/-- Message model: mirrors HumanMessage, AIMessage (with optional name) and
SystemMessage from the source. -/
inductive Msg where
  | human (content : String)
  | ai (name : Option String) (content : String)
  | system (content : String)
deriving DecidableEq

/-- Analyst persona record, from core/schemas.py (string fields only). -/
structure Analyst where
  name : String
  role : String
  affiliation : String
  description : String
deriving DecidableEq

/-- Substring search on character lists: the needle occurs somewhere in the
haystack. -/
def containsSub : List Char → List Char → Bool
  | [], needle => needle.isEmpty
  | h :: t, needle => needle.isPrefixOf (h :: t) || containsSub t needle

/-- Split at the first occurrence of a separator: the pieces before and after
it, or none when the separator does not occur (Python split with maxsplit 1,
which yields either two pieces or one). -/
def splitFirstChars : List Char → List Char → Option (List Char × List Char)
  | [], _ => none
  | h :: t, sep =>
    if sep.isPrefixOf (h :: t) then some ([], (h :: t).drop sep.length)
    else
      match splitFirstChars t sep with
      | some (pre, post) => some (h :: pre, post)
      | none => none

/-- Python str.lower (character-wise lowering). -/
def pyLower (s : String) : String := ⟨s.data.map Char.toLower⟩

/-- Python str.strip: remove leading and trailing whitespace. -/
def pyStrip (s : String) : String :=
  ⟨((s.data.dropWhile Char.isWhitespace).reverse.dropWhile Char.isWhitespace).reverse⟩

/-- Python substring containment test (the in operator on strings). -/
def pyContains (s pat : String) : Bool := containsSub s.data pat.data

/-- Python str.startswith. -/
def strStartsWith (s pat : String) : Bool := pat.data.isPrefixOf s.data

/-- Python character-indexed slicing from position n to the end. -/
def strDropChars (s : String) (n : Nat) : String := ⟨s.data.drop n⟩

/-- Split a string at the first occurrence of a separator. -/
def pySplitFirst (s sep : String) : Option (String × String) :=
  match splitFirstChars s.data sep.data with
  | some (pre, post) => some (⟨pre⟩, ⟨post⟩)
  | none => none

/-- From nodes/interview_nodes.py route_messages: a message counts as an
expert response when it is an AIMessage whose name equals the expert name. -/
def isExpertMsg (expertName : String) (m : Msg) : Bool :=
  match m with
  | .ai (some n) _ => n == expertName
  | _ => false

/-- Number of expert responses (completed turns) in a message list. -/
def numExpertResponses (expertName : String) (ms : List Msg) : Nat :=
  (ms.filter (isExpertMsg expertName)).length

/-- The conclusion phrases from route_messages in nodes/interview_nodes.py. -/
def conclusionPhrases : List String :=
  ["thank you", "thanks", "that\x27s all", "that\x27ll be all", "goodbye",
   "that\x27s everything"]

/-- True when the last message exists, is a HumanMessage, and its lowercased
content contains one of the conclusion phrases; this is exactly the
conclusion check of route_messages. -/
def lastConcluded (ms : List Msg) : Bool :=
  match ms.getLast? with
  | some (.human c) => conclusionPhrases.any (fun p => pyContains (pyLower c) p)
  | _ => false

/-- route_messages from nodes/interview_nodes.py: returns save_interview when
the last message is a concluding human message, otherwise continues with
ask_question while the expert response count is below max_num_turns. -/
def route_messages (ms : List Msg) (maxNumTurns : Nat) (expertName : String) : String :=
  if lastConcluded ms then "save_interview"
  else if numExpertResponses expertName ms < maxNumTurns then "ask_question"
  else "save_interview"

/-- Spec-side notion used by the claim about route_messages: the most recent
message that is not expert-tagged. -/
def specMostRecentNonExpert (expertName : String) (ms : List Msg) : Option Msg :=
  (ms.filter (fun m => !(isExpertMsg expertName m))).getLast?

/-- Research graph state fields used by initiate_all_interviews in
graphs/research_graph.py; human_analyst_feedback is optional because the code
reads it with state.get and a default. -/
structure ResearchState where
  topic : String
  human_analyst_feedback : Option String
  analysts : List Analyst

/-- A Send object: target node plus the seeded branch state. -/
structure SendObj where
  node : String
  analyst : Analyst
  messages : List Msg
deriving DecidableEq

/-- Result of a conditional router: either a node id or a list of Send
objects (fan-out branches). -/
inductive RouteOrSends where
  | toNode (id : String)
  | sends (l : List SendObj)
deriving DecidableEq

/-- initiate_all_interviews from graphs/research_graph.py.  Reads feedback
with default "approve"; routes to create_analysts when the lowercased and
trimmed feedback differs from "approve"; raises when the analysts list is
empty; otherwise emits one Send per analyst seeded with the analyst and the
opening message. -/
def initiate_all_interviews (st : ResearchState) : Except String RouteOrSends :=
  let humanAnalystFeedback := st.human_analyst_feedback.getD "approve"
  if pyStrip (pyLower humanAnalystFeedback) ≠ "approve" then
    .ok (.toNode "create_analysts")
  else if st.analysts.isEmpty then
    .error "Cannot initiate interviews without analysts"
  else
    .ok (.sends (st.analysts.map (fun a =>
      { node := "conduct_interview"
        analyst := a
        messages := [Msg.human ("So you said you were writing an article on "
          ++ st.topic ++ "?")] })))

/-- Scalar values stored in a state dictionary. -/
inductive Atom where
  | astr (s : String)
  | anat (n : Nat)
deriving DecidableEq

/-- A state dictionary value: either a scalar or a list of scalars. -/
inductive Val where
  | atom (a : Atom)
  | vlist (l : List Atom)
deriving DecidableEq

/-- A Python dict modelled as an association list with unique keys; later
set operations overwrite in place. -/
abbrev StateDict := List (String × Val)

/-- Dictionary lookup. -/
def lookupKey : StateDict → String → Option Val
  | [], _ => none
  | (k, v) :: rest, key => if k = key then some v else lookupKey rest key

/-- Dictionary assignment: overwrite the first binding of the key, or append
a new binding at the end (Python dict insertion order). -/
def setKey : StateDict → String → Val → StateDict
  | [], key, v => [(key, v)]
  | (k, w) :: rest, key, v =>
    if k = key then (key, v) :: rest else (k, w) :: setKey rest key v

/-- The additive fields of merge_state_updates in core/state.py. -/
def additiveFields : List String := ["context", "sections"]

/-- Normalization used by merge_state_updates: a list value stays as is, a
scalar update value becomes a singleton list. -/
def pyToList : Val → List Atom
  | .vlist l => l
  | .atom a => [a]

/-- Python list concatenation new_state[key] + value (with the singleton
normalization for scalar update values); adding to a non-list current value
raises TypeError. -/
def pyAdd (old : Val) (v : Val) : Except String Val :=
  match old with
  | .vlist ol => .ok (.vlist (ol ++ pyToList v))
  | .atom _ => .error "TypeError"

/-- One iteration of the update loop in merge_state_updates: append when the
key is additive and already present, otherwise replace. -/
def applyUpd (ns : StateDict) (k : String) (v : Val) : Except String StateDict :=
  if additiveFields.contains k then
    match lookupKey ns k with
    | some old => (pyAdd old v).map (setKey ns k)
    | none => .ok (setKey ns k v)
  else .ok (setKey ns k v)

/-- merge_state_updates from core/state.py: fold every update entry into a
copy of the current state. -/
def merge_state_updates (currentState upd : StateDict) : Except String StateDict :=
  upd.foldlM (fun ns kv => applyUpd ns kv.1 kv.2) currentState

/-- The known state fields of the research and interview states declared in
core/state.py. -/
def knownStateFields : List String :=
  ["topic", "max_analysts", "human_analyst_feedback", "analysts", "sections",
   "introduction", "content", "conclusion", "final_report", "messages",
   "max_num_turns", "context", "analyst", "interview"]

/-- The heading cleanup at the start of finalize_report in
nodes/report_nodes.py: drop a leading "## Insights" heading and strip. -/
def stripInsights (content : String) : String :=
  if strStartsWith content "## Insights" then
    pyStrip (strDropChars content "## Insights".length)
  else content

/-- The sources extraction of finalize_report: when "## Sources" occurs in
the content, try to split once on the delimiter line; a failed split (the
ValueError branch) leaves the content unchanged with no sources. -/
def splitSources (c : String) : String × Option String :=
  if pyContains c "## Sources" then
    match pySplitFirst c "\n## Sources\n" with
    | some (contentBody, sourcesSection) => (contentBody, some sourcesSection)
    | none => (c, none)
  else (c, none)

/-- The report parts assembled by finalize_report: the three stripped
components with two separator entries, plus the sources block when a
non-empty sources string was extracted. -/
def reportParts (i c k : String) : List String :=
  let body := (splitSources (stripInsights c)).1
  let base := [pyStrip i, "---", pyStrip body, "---", pyStrip k]
  match (splitSources (stripInsights c)).2 with
  | some s => if s = "" then base else base ++ ["", "## Sources", pyStrip s]
  | none => base

/-- finalize_report from nodes/report_nodes.py: validate the three
components, clean the content, extract sources, and join the parts with
blank-line separators. -/
def finalize_report (i c k : String) : Except String String :=
  if i = "" then .error "Introduction is missing"
  else if c = "" then .error "Content is missing"
  else if k = "" then .error "Conclusion is missing"
  else .ok (String.intercalate "\n\n" (reportParts i c k))

/-- create_analysts from nodes/analyst_nodes.py, with the structured LLM
output passed in as the generated persona list: validates topic and
max_analysts, fails on an empty generation, and truncates an
over-production to the first max_analysts entries.  All failures inside the
generation block surface as AnalystCreationError. -/
def create_analysts (topic : String) (maxAnalysts : Int)
    (generated : List Analyst) : Except String (List Analyst) :=
  if topic = "" then .error "Topic is required for analyst creation"
  else if maxAnalysts = 0 then .error "max_analysts is required for analyst creation"
  else if maxAnalysts < 1 ∨ maxAnalysts > 10 then
    .error "max_analysts must be between 1 and 10"
  else if generated.isEmpty then
    .error "Analyst creation failed: LLM returned empty analyst list"
  else if generated.length > maxAnalysts.toNat then
    .ok (generated.take maxAnalysts.toNat)
  else .ok generated

/-- search_web_node from graphs/interview_graph.py, with the query
generator, the search tool and the result formatter as collaborator
parameters (each may raise).  Returns the context update; every collaborator
failure is caught and yields an empty context. -/
def search_web_node {R : Type} (queryGen : List Msg → Except String String)
    (searchTool : String → Except String R)
    (formatResults : R → Except String String)
    (messages : List Msg) : List String :=
  if messages.isEmpty then []
  else
    match queryGen messages with
    | .error _ => []
    | .ok q =>
      if q = "" then []
      else
        match searchTool q with
        | .error _ => []
        | .ok results =>
          match formatResults results with
          | .error _ => []
          | .ok formatted => [formatted]

/-- search_wikipedia_node from graphs/interview_graph.py; identical control
flow to the web search node, over the Wikipedia collaborators. -/
def search_wikipedia_node {D : Type} (queryGen : List Msg → Except String String)
    (searchTool : String → Except String D)
    (formatResults : D → Except String String)
    (messages : List Msg) : List String :=
  if messages.isEmpty then []
  else
    match queryGen messages with
    | .error _ => []
    | .ok q =>
      if q = "" then []
      else
        match searchTool q with
        | .error _ => []
        | .ok documents =>
          match formatResults documents with
          | .error _ => []
          | .ok formatted => [formatted]

/-- The question message appended by generate_question: an AIMessage with no
name tag. -/
def questionMsg (c : String) : Msg := Msg.ai none c

/-- The answer message appended by generate_answer: an AIMessage tagged with
the expert name. -/
def expertAnswerMsg (c : String) : Msg := Msg.ai (some "expert") c

/-- One ask-question/answer-question cycle of the interview subgraph in
graphs/interview_graph.py: the question node appends one untagged AI message
and the answer node appends one expert-tagged message (the search nodes only
touch the context field). -/
def interviewCycle (ms : List Msg) (qa : String × String) : List Msg :=
  ms ++ [questionMsg qa.1, expertAnswerMsg qa.2]

/-- Run a script of question/answer contents through successive interview
cycles. -/
def runInterviewCycles (ms : List Msg) (script : List (String × String)) : List Msg :=
  script.foldl interviewCycle ms

/-! ## Lemmas about the state dictionary -/

theorem lookupKey_setKey_self (d : StateDict) (k : String) (v : Val) :
    lookupKey (setKey d k v) k = some v := by
  induction d with
  | nil => simp [setKey, lookupKey]
  | cons hd t ih =>
    obtain ⟨a, b⟩ := hd
    by_cases h : a = k
    · simp [setKey, h, lookupKey]
    · simp [setKey, h, lookupKey, ih]

theorem lookupKey_setKey_ne (d : StateDict) (k k2 : String) (v : Val)
    (h : k ≠ k2) : lookupKey (setKey d k2 v) k = lookupKey d k := by
  induction d with
  | nil =>
    simp only [setKey, lookupKey]
    rw [if_neg (fun h2 => h h2.symm)]
  | cons hd t ih =>
    obtain ⟨a, b⟩ := hd
    by_cases h2 : a = k2
    · subst h2
      simp only [setKey, lookupKey, if_pos rfl]
      rw [if_neg (fun h3 => h h3.symm), if_neg (fun h3 => h h3.symm)]
    · simp only [setKey, lookupKey, if_neg h2]
      by_cases h3 : a = k
      · rw [if_pos h3, if_pos h3]
      · rw [if_neg h3, if_neg h3, ih]

theorem applyUpd_lookup_ne {ns ns2 : StateDict} {k2 : String} {v : Val}
    (h : applyUpd ns k2 v = .ok ns2) (k : String) (hne : k ≠ k2) :
    lookupKey ns2 k = lookupKey ns k := by
  unfold applyUpd at h
  split at h
  · split at h
    · rename_i old hold
      cases hp : pyAdd old v with
      | error e => rw [hp] at h; simp [Except.map] at h
      | ok nv =>
        rw [hp] at h
        simp [Except.map] at h
        rw [← h, lookupKey_setKey_ne _ _ _ _ hne]
    · injection h with h
      rw [← h, lookupKey_setKey_ne _ _ _ _ hne]
  · injection h with h
    rw [← h, lookupKey_setKey_ne _ _ _ _ hne]

theorem applyUpd_lookup_self {ns ns2 : StateDict} {k : String} {v : Val}
    (h : applyUpd ns k v = .ok ns2) :
    (additiveFields.contains k = false → lookupKey ns2 k = some v) ∧
    (additiveFields.contains k = true → ∀ ol, lookupKey ns k = some (Val.vlist ol) →
      lookupKey ns2 k = some (Val.vlist (ol ++ pyToList v))) := by
  constructor
  · intro hadd
    unfold applyUpd at h
    rw [hadd] at h
    simp at h
    rw [← h, lookupKey_setKey_self]
  · intro hadd ol hol
    unfold applyUpd at h
    rw [hadd] at h
    simp at h
    rw [hol] at h
    simp [pyAdd, Except.map] at h
    rw [← h, lookupKey_setKey_self]

theorem merge_foldl_cons (cur : StateDict) (a : String) (b : Val) (t : StateDict) :
    merge_state_updates cur ((a, b) :: t) =
      (applyUpd cur a b).bind (fun ns1 => merge_state_updates ns1 t) := by
  rfl

theorem merge_lookup_notMem (upd : StateDict) : ∀ cur ns : StateDict, ∀ k : String,
    merge_state_updates cur upd = .ok ns → k ∉ upd.map Prod.fst →
    lookupKey ns k = lookupKey cur k := by
  induction upd with
  | nil =>
    intro cur ns k h _
    injection h with h
    rw [h]
  | cons hd t ih =>
    intro cur ns k h hk
    obtain ⟨a, b⟩ := hd
    rw [merge_foldl_cons] at h
    cases happ : applyUpd cur a b with
    | error e => rw [happ] at h; simp [Except.bind] at h
    | ok ns1 =>
      rw [happ] at h
      simp only [Except.bind] at h
      simp only [List.map_cons, List.mem_cons, not_or] at hk
      rw [ih ns1 ns k h hk.2]
      exact applyUpd_lookup_ne happ k hk.1

theorem merge_lookup_mem (upd : StateDict) : ∀ cur ns : StateDict,
    ∀ k : String, ∀ v : Val,
    (upd.map Prod.fst).Nodup → merge_state_updates cur upd = .ok ns →
    (k, v) ∈ upd →
    (additiveFields.contains k = false → lookupKey ns k = some v) ∧
    (additiveFields.contains k = true → ∀ ol, lookupKey cur k = some (Val.vlist ol) →
      lookupKey ns k = some (Val.vlist (ol ++ pyToList v))) := by
  induction upd with
  | nil =>
    intro cur ns k v _ _ hmem
    simp at hmem
  | cons hd t ih =>
    intro cur ns k v hnodup h hmem
    obtain ⟨a, b⟩ := hd
    rw [merge_foldl_cons] at h
    cases happ : applyUpd cur a b with
    | error e => rw [happ] at h; simp [Except.bind] at h
    | ok ns1 =>
      rw [happ] at h
      simp only [Except.bind] at h
      simp only [List.map_cons, List.nodup_cons] at hnodup
      rcases List.mem_cons.mp hmem with heq | hmem2
      · injection heq with hk hv
        subst hk; subst hv
        have hpres := merge_lookup_notMem t ns1 ns k h hnodup.1
        have hself := applyUpd_lookup_self happ
        constructor
        · intro hadd
          rw [hpres]
          exact hself.1 hadd
        · intro hadd ol hol
          rw [hpres]
          exact hself.2 hadd ol hol
      · have hkne : k ≠ a := by
          intro hka
          subst hka
          exact hnodup.1 (List.mem_map.mpr ⟨(k, v), hmem2, rfl⟩)
        have hstep := applyUpd_lookup_ne happ k hkne
        have := ih ns1 ns k v hnodup.2 h hmem2
        constructor
        · exact this.1
        · intro hadd ol hol
          exact this.2 hadd ol (by rw [hstep, hol])

theorem unknown_not_additive (k : String) (hk : k ∉ knownStateFields) :
    additiveFields.contains k = false := by
  cases hcon : additiveFields.contains k with
  | false => rfl
  | true =>
    exfalso
    have hmem : k ∈ additiveFields := by
      have := List.elem_iff.mp hcon
      exact this
    simp [additiveFields] at hmem
    rcases hmem with h | h <;> subst h <;> exact hk (by decide)

/-- Claim C3, amended: the claim that a write to an unknown field is dropped
is false; merge_state_updates applies an update whose key is not a known
state field by plain replacement, so the value is written into the result
exactly like a REPLACE field. -/
theorem merge_state_updates_unknown_key_written
    (cur upd ns : StateDict) (k : String) (v : Val)
    (hunk : k ∉ knownStateFields)
    (hnodup : (upd.map Prod.fst).Nodup)
    (hmerge : merge_state_updates cur upd = .ok ns)
    (hmem : (k, v) ∈ upd) :
    lookupKey ns k = some v :=
  (merge_lookup_mem upd cur ns k v hnodup hmerge hmem).1 (unknown_not_additive k hunk)

/-- Claim C3, counterexample to the original claim: merging an update whose
key is unknown into the empty state yields a state containing that key, so
the write is kept rather than dropped and the state is changed at that
key. -/
theorem merge_state_updates_unknown_key_counterexample :
    merge_state_updates [] [("unknown_field", Val.atom (Atom.astr "x"))] =
      .ok [("unknown_field", Val.atom (Atom.astr "x"))] ∧
    ("unknown_field" ∉ knownStateFields) ∧
    lookupKey [] "unknown_field" = none ∧
    lookupKey [("unknown_field", Val.atom (Atom.astr "x"))] "unknown_field" =
      some (Val.atom (Atom.astr "x")) :=
  ⟨rfl, by decide, rfl, rfl⟩

/-- Claim C3, witness: the amended theorem applied to a concrete unknown-key
update. -/
theorem merge_state_updates_unknown_key_witness :
    lookupKey [("custom_key", Val.atom (Atom.anat 7))] "custom_key" =
      some (Val.atom (Atom.anat 7)) :=
  merge_state_updates_unknown_key_written [] [("custom_key", Val.atom (Atom.anat 7))]
    [("custom_key", Val.atom (Atom.anat 7))] "custom_key" (Val.atom (Atom.anat 7))
    (by decide) (by decide) rfl (by decide)

/-- Claim C4: merge_state_updates gives REPLACE semantics to every
non-additive field present in the update, and APPEND semantics (list
concatenation, with a scalar update value normalized to a singleton list) to
the additive fields context and sections when present in both the state and
the update. -/
theorem merge_state_updates_policies
    (cur upd ns : StateDict) (k : String) (v : Val)
    (hnodup : (upd.map Prod.fst).Nodup)
    (hmerge : merge_state_updates cur upd = .ok ns)
    (hmem : (k, v) ∈ upd) :
    (additiveFields.contains k = false → lookupKey ns k = some v) ∧
    (additiveFields.contains k = true → ∀ ol, lookupKey cur k = some (Val.vlist ol) →
      lookupKey ns k = some (Val.vlist (ol ++ pyToList v))) :=
  merge_lookup_mem upd cur ns k v hnodup hmerge hmem

/-- Claim C4, witness: a concrete merge where a REPLACE field (topic) is
overwritten and an APPEND field (sections) receives a scalar update that is
appended as a singleton. -/
theorem merge_state_updates_policies_witness :
    lookupKey [("sections", Val.vlist [Atom.astr "s1", Atom.astr "s2"]),
        ("topic", Val.atom (Atom.astr "t2"))] "sections" =
      some (Val.vlist ([Atom.astr "s1"] ++ pyToList (Val.atom (Atom.astr "s2")))) ∧
    lookupKey [("sections", Val.vlist [Atom.astr "s1", Atom.astr "s2"]),
        ("topic", Val.atom (Atom.astr "t2"))] "topic" =
      some (Val.atom (Atom.astr "t2")) := by
  have h1 := merge_state_updates_policies
    [("sections", Val.vlist [Atom.astr "s1"]), ("topic", Val.atom (Atom.astr "t"))]
    [("topic", Val.atom (Atom.astr "t2")), ("sections", Val.atom (Atom.astr "s2"))]
    [("sections", Val.vlist [Atom.astr "s1", Atom.astr "s2"]),
     ("topic", Val.atom (Atom.astr "t2"))]
    "sections" (Val.atom (Atom.astr "s2")) (by decide) rfl (by decide)
  have h2 := merge_state_updates_policies
    [("sections", Val.vlist [Atom.astr "s1"]), ("topic", Val.atom (Atom.astr "t"))]
    [("topic", Val.atom (Atom.astr "t2")), ("sections", Val.atom (Atom.astr "s2"))]
    [("sections", Val.vlist [Atom.astr "s1", Atom.astr "s2"]),
     ("topic", Val.atom (Atom.astr "t2"))]
    "topic" (Val.atom (Atom.astr "t2")) (by decide) rfl (by decide)
  exact ⟨h1.2 (by decide) [Atom.astr "s1"] rfl, h2.1 (by decide)⟩

/-- Claim C5: finalize_report raises exactly when one of introduction,
content or conclusion is empty, and returns a final report without raising
whenever all three are non-empty. -/
theorem finalize_report_error_iff (i c k : String) :
    ((∃ e, finalize_report i c k = .error e) ↔ (i = "" ∨ c = "" ∨ k = "")) ∧
    ((i ≠ "" ∧ c ≠ "" ∧ k ≠ "") → ∃ r, finalize_report i c k = .ok r) := by
  unfold finalize_report
  split_ifs <;> simp_all

/-- Claim C5, witness: the validation theorem applied to a concrete state
with an empty introduction and to a concrete complete state. -/
theorem finalize_report_error_iff_witness :
    (∃ e, finalize_report "" "c" "k" = Except.error e) ∧
    (∃ r, finalize_report "i" "c" "k" = Except.ok r) :=
  ⟨(finalize_report_error_iff "" "c" "k").1.mpr (Or.inl rfl),
   (finalize_report_error_iff "i" "c" "k").2 ⟨by decide, by decide, by decide⟩⟩

/-- Claim C6, amended: for non-empty components the final report is the
introduction, the cleaned content body and the conclusion joined with two
separator entries, with a sources block appended exactly when a non-empty
sources section was split out of the content; an extracted but empty sources
section is dropped. -/
theorem finalize_report_structure (i c k : String)
    (hi : i ≠ "") (hc : c ≠ "") (hk : k ≠ "") :
    ∃ rest,
      finalize_report i c k = .ok (String.intercalate "\n\n"
        ([pyStrip i, "---", pyStrip (splitSources (stripInsights c)).1, "---",
          pyStrip k] ++ rest)) ∧
      ((splitSources (stripInsights c)).2 = none → rest = []) ∧
      (∀ s, (splitSources (stripInsights c)).2 = some s → s ≠ "" →
        rest = ["", "## Sources", pyStrip s]) ∧
      (∀ s, (splitSources (stripInsights c)).2 = some s → s = "" → rest = []) := by
  cases hs : (splitSources (stripInsights c)).2 with
  | none =>
    refine ⟨[], ?_, fun _ => rfl, ?_, ?_⟩
    · simp [finalize_report, hi, hc, hk, reportParts, hs]
    · intro s hsome
      exact Option.noConfusion hsome
    · intro s hsome
      exact Option.noConfusion hsome
  | some s =>
    by_cases hse : s = ""
    · refine ⟨[], ?_, fun h => rfl, ?_, fun _ _ _ => rfl⟩
      · simp [finalize_report, hi, hc, hk, reportParts, hs, hse]
      · intro s2 hsome hne
        injection hsome with h2
        exact absurd (h2.symm.trans hse) hne
    · refine ⟨["", "## Sources", pyStrip s], ?_, ?_, ?_, ?_⟩
      · simp [finalize_report, hi, hc, hk, reportParts, hs, hse]
      · intro h
        exact Option.noConfusion h
      · intro s2 hsome hne
        injection hsome with h2
        rw [h2]
      · intro s2 hsome hemp
        injection hsome with h2
        exact absurd (h2.trans hemp) hse

/-- Claim C6, counterexample to the original claim: a content whose embedded
sources block is empty.  The content contains a sources heading, yet the
assembled final report does not, because the empty extracted block is
dropped. -/
theorem finalize_report_sources_dropped_counterexample :
    pyContains "X\n## Sources\n" "## Sources" = true ∧
    finalize_report "I" "X\n## Sources\n" "C" = .ok "I\n\n---\n\nX\n\n---\n\nC" ∧
    pyContains "I\n\n---\n\nX\n\n---\n\nC" "## Sources" = false :=
  ⟨by decide, rfl, by decide⟩

/-- Claim C6, witness: the structure theorem applied to a concrete report
whose content carries a non-empty sources block. -/
theorem finalize_report_structure_witness :
    ∃ rest,
      finalize_report "Intro" "Body\n## Sources\n[1] S" "Conc" =
        .ok (String.intercalate "\n\n"
          (["Intro", "---", "Body", "---", "Conc"] ++ rest)) ∧
      rest = ["", "## Sources", "[1] S"] := by
  obtain ⟨rest, h1, _, h3, _⟩ := finalize_report_structure
    "Intro" "Body\n## Sources\n[1] S" "Conc" (by decide) (by decide) (by decide)
  refine ⟨rest, h1, ?_⟩
  rw [h3 "[1] S" rfl (by decide)]
  rfl

theorem isEmpty_false_of_ne_nil {α : Type} {l : List α} (h : l ≠ []) :
    l.isEmpty = false := by
  simp [List.isEmpty_iff]
  exact h

/-- Claim C1, amended: when the defaulted feedback, lowercased and trimmed,
equals approve and the analysts list is non-empty, the router emits exactly
one Send per analyst in list order, each targeting the interview subgraph
and seeded with that analyst and the opening message; when the feedback
differs from approve it routes back to create_analysts with no branches;
when the feedback equals approve but the analysts list is empty it raises a
ValueError instead of spawning zero branches. -/
theorem initiate_all_interviews_fanout (st : ResearchState) :
    (pyStrip (pyLower (st.human_analyst_feedback.getD "approve")) = "approve" →
      st.analysts ≠ [] →
      ∃ l, initiate_all_interviews st = .ok (.sends l) ∧
        l.length = st.analysts.length ∧
        ∀ i, ∀ h : i < l.length, ∀ h2 : i < st.analysts.length,
          l[i].node = "conduct_interview" ∧
          l[i].analyst = st.analysts[i] ∧
          l[i].messages = [Msg.human ("So you said you were writing an article on "
            ++ st.topic ++ "?")]) ∧
    (pyStrip (pyLower (st.human_analyst_feedback.getD "approve")) ≠ "approve" →
      initiate_all_interviews st = .ok (.toNode "create_analysts")) ∧
    (pyStrip (pyLower (st.human_analyst_feedback.getD "approve")) = "approve" →
      st.analysts = [] →
      initiate_all_interviews st = .error "Cannot initiate interviews without analysts") := by
  refine ⟨?_, ?_, ?_⟩
  · intro happ hne
    unfold initiate_all_interviews
    rw [if_neg (by simp [happ]), if_neg (by rw [isEmpty_false_of_ne_nil hne]; simp)]
    refine ⟨_, rfl, by simp, ?_⟩
    intro i h h2
    refine ⟨?_, ?_, ?_⟩ <;> simp [List.getElem_map]
  · intro hne
    unfold initiate_all_interviews
    rw [if_pos (by simpa using hne)]
  · intro happ hemp
    unfold initiate_all_interviews
    rw [if_neg (by simp [happ]), if_pos (by simp [hemp])]

/-- Claim C1, counterexample to the original claim: with feedback approve
and an empty analysts list the router raises a ValueError rather than
returning the empty list of branches the claim would require. -/
theorem initiate_all_interviews_empty_counterexample :
    initiate_all_interviews ⟨"AI Safety", some "approve", []⟩ =
      .error "Cannot initiate interviews without analysts" ∧
    ∀ l, initiate_all_interviews ⟨"AI Safety", some "approve", []⟩ ≠ .ok (.sends l) := by
  refine ⟨rfl, ?_⟩
  intro l h
  rw [show initiate_all_interviews ⟨"AI Safety", some "approve", []⟩ =
    .error "Cannot initiate interviews without analysts" from rfl] at h
  exact Except.noConfusion h

/-- Claim C1, witness: the fan-out case of the amended theorem at a concrete
approved state with one analyst. -/
theorem initiate_all_interviews_fanout_witness :
    ∃ l, initiate_all_interviews ⟨"AI Safety", some "approve",
        [⟨"Dr. A", "Researcher", "Lab", "Focus"⟩]⟩ = .ok (.sends l) ∧
      l.length = 1 := by
  obtain ⟨l, h1, h2, -⟩ := (initiate_all_interviews_fanout
    ⟨"AI Safety", some "approve", [⟨"Dr. A", "Researcher", "Lab", "Focus"⟩]⟩).1
    (by decide) (by decide)
  exact ⟨l, h1, by rw [h2]; rfl⟩

/-- Claim C10: an absent feedback field defaults to approve and spawns the
interview branches, a present empty-string feedback routes back to
create_analysts, and approve with an empty analysts list raises a
ValueError. -/
theorem initiate_all_interviews_defaults (topic : String) (analysts : List Analyst)
    (hne : analysts ≠ []) :
    (∃ l, initiate_all_interviews ⟨topic, none, analysts⟩ = .ok (.sends l) ∧
      l.length = analysts.length) ∧
    initiate_all_interviews ⟨topic, some "", analysts⟩ = .ok (.toNode "create_analysts") ∧
    initiate_all_interviews ⟨topic, some "approve", []⟩ =
      .error "Cannot initiate interviews without analysts" := by
  refine ⟨?_, rfl, rfl⟩
  have hmain : initiate_all_interviews ⟨topic, none, analysts⟩ =
      .ok (.sends (analysts.map (fun a =>
        { node := "conduct_interview"
          analyst := a
          messages := [Msg.human ("So you said you were writing an article on "
            ++ topic ++ "?")] }))) := by
    unfold initiate_all_interviews
    rw [if_neg (fun h => h rfl), if_neg (by rw [isEmpty_false_of_ne_nil hne]; simp)]
  exact ⟨_, hmain, by simp⟩

/-- Claim C10, witness: the defaults theorem at a concrete state with one
analyst. -/
theorem initiate_all_interviews_defaults_witness :
    ∃ l, initiate_all_interviews ⟨"T", none, [⟨"A", "R", "F", "D"⟩]⟩ = .ok (.sends l) ∧
      l.length = 1 := by
  obtain ⟨⟨l, h1, h2⟩, -, -⟩ := initiate_all_interviews_defaults "T"
    [⟨"A", "R", "F", "D"⟩] (by decide)
  exact ⟨l, h1, by rw [h2]; rfl⟩

theorem lastConcluded_iff (ms : List Msg) :
    lastConcluded ms = true ↔ ∃ c, ms.getLast? = some (Msg.human c) ∧
      (conclusionPhrases.any fun p => pyContains (pyLower c) p) = true := by
  unfold lastConcluded
  cases hl : ms.getLast? with
  | none => simp
  | some m =>
    cases m with
    | human c => simp
    | ai n c => simp
    | system c => simp

/-- Claim C2, amended: route_messages returns save_interview exactly when
the expert-tagged message count has reached max_num_turns or the last
message is a HumanMessage whose lowercased content contains one of the
conclusion phrases, and returns ask_question otherwise.  The original
claim, which keyed the conclusion check to the most recent non-expert
message of any kind, is refuted by the counterexample below. -/
theorem route_messages_decision (ms : List Msg) (maxNumTurns : Nat) :
    (route_messages ms maxNumTurns "expert" = "save_interview" ↔
      (maxNumTurns ≤ numExpertResponses "expert" ms ∨
        ∃ c, ms.getLast? = some (Msg.human c) ∧
          (conclusionPhrases.any fun p => pyContains (pyLower c) p) = true)) ∧
    (route_messages ms maxNumTurns "expert" = "ask_question" ↔
      ¬(maxNumTurns ≤ numExpertResponses "expert" ms ∨
        ∃ c, ms.getLast? = some (Msg.human c) ∧
          (conclusionPhrases.any fun p => pyContains (pyLower c) p) = true)) := by
  unfold route_messages
  by_cases hconc : lastConcluded ms = true
  · rw [if_pos hconc]
    have hrhs := (lastConcluded_iff ms).mp hconc
    exact ⟨⟨fun _ => Or.inr hrhs, fun _ => rfl⟩,
      ⟨fun h => absurd h (by decide), fun h => absurd (Or.inr hrhs) h⟩⟩
  · rw [if_neg hconc]
    have hnc : ¬∃ c, ms.getLast? = some (Msg.human c) ∧
        (conclusionPhrases.any fun p => pyContains (pyLower c) p) = true :=
      fun hex => hconc ((lastConcluded_iff ms).mpr hex)
    by_cases hlt : numExpertResponses "expert" ms < maxNumTurns
    · rw [if_pos hlt]
      refine ⟨⟨fun h => absurd h (by decide), fun h => ?_⟩,
        ⟨fun _ => ?_, fun _ => rfl⟩⟩
      · rcases h with hle | hex
        · exact absurd hlt (Nat.not_lt.mpr hle)
        · exact absurd hex hnc
      · intro h
        rcases h with hle | hex
        · exact absurd hlt (Nat.not_lt.mpr hle)
        · exact absurd hex hnc
    · rw [if_neg hlt]
      have hle : maxNumTurns ≤ numExpertResponses "expert" ms := Nat.le_of_not_lt hlt
      exact ⟨⟨fun _ => Or.inl hle, fun _ => rfl⟩,
        ⟨fun h => absurd h (by decide), fun h => absurd (Or.inl hle) h⟩⟩

/-- Claim C2, counterexample to the original claim: a single untagged AI
message containing a conclusion phrase is the most recent non-expert
message, the expert count is below max_num_turns, yet route_messages keeps
asking because the conclusion check only looks at a trailing HumanMessage. -/
theorem route_messages_nonexpert_counterexample :
    route_messages [Msg.ai none "thank you"] 1 "expert" = "ask_question" ∧
    specMostRecentNonExpert "expert" [Msg.ai none "thank you"] =
      some (Msg.ai none "thank you") ∧
    (conclusionPhrases.any fun p => pyContains (pyLower "thank you") p) = true ∧
    numExpertResponses "expert" [Msg.ai none "thank you"] = 0 ∧
    route_messages [Msg.ai none "thank you"] 1 "expert" ≠ "save_interview" :=
  ⟨rfl, rfl, by decide, rfl, by decide⟩

/-- Claim C2, witness: the amended decision theorem applied to a concrete
concluding human message. -/
theorem route_messages_decision_witness :
    route_messages [Msg.human "thanks for everything"] 5 "expert" = "save_interview" :=
  (route_messages_decision [Msg.human "thanks for everything"] 5).1.mpr
    (Or.inr ⟨"thanks for everything", rfl, by decide⟩)

theorem search_web_node_fail {R : Type} (queryGen : List Msg → Except String String)
    (searchTool : String → Except String R)
    (formatResults : R → Except String String) (ms : List Msg)
    (h : (∃ e, queryGen ms = .error e) ∨
      (∃ q e, queryGen ms = .ok q ∧ searchTool q = .error e) ∨
      (∃ q r e, queryGen ms = .ok q ∧ searchTool q = .ok r ∧
        formatResults r = .error e)) :
    search_web_node queryGen searchTool formatResults ms = [] := by
  by_cases hms : ms.isEmpty
  · simp [search_web_node, hms]
  · rcases h with ⟨e, he⟩ | ⟨q, e, hq, hs⟩ | ⟨q, r, e, hq, hs, hf⟩
    · simp [search_web_node, hms, he]
    · by_cases hqe : q = ""
      · simp [search_web_node, hms, hq, hqe]
      · simp [search_web_node, hms, hq, hqe, hs]
    · by_cases hqe : q = ""
      · simp [search_web_node, hms, hq, hqe]
      · simp [search_web_node, hms, hq, hqe, hs, hf]

theorem search_web_node_shape {R : Type} (queryGen : List Msg → Except String String)
    (searchTool : String → Except String R)
    (formatResults : R → Except String String) (ms : List Msg) :
    search_web_node queryGen searchTool formatResults ms = [] ∨
      ∃ f, search_web_node queryGen searchTool formatResults ms = [f] := by
  by_cases hms : ms.isEmpty
  · exact Or.inl (by simp [search_web_node, hms])
  · cases hq : queryGen ms with
    | error e => exact Or.inl (by simp [search_web_node, hms, hq])
    | ok q =>
      by_cases hqe : q = ""
      · exact Or.inl (by simp [search_web_node, hms, hq, hqe])
      · cases hs : searchTool q with
        | error e => exact Or.inl (by simp [search_web_node, hms, hq, hqe, hs])
        | ok r =>
          cases hf : formatResults r with
          | error e => exact Or.inl (by simp [search_web_node, hms, hq, hqe, hs, hf])
          | ok f => exact Or.inr ⟨f, by simp [search_web_node, hms, hq, hqe, hs, hf]⟩

theorem search_wikipedia_eq_web {D : Type} (queryGen : List Msg → Except String String)
    (searchTool : String → Except String D)
    (formatResults : D → Except String String) (ms : List Msg) :
    search_wikipedia_node queryGen searchTool formatResults ms =
      search_web_node queryGen searchTool formatResults ms := rfl

/-- Claim C7: the web and Wikipedia search nodes never raise (they are total
functions returning a context update), any collaborator failure in the
query-generation, search or formatting step is caught and yields an empty
context, and in every case the returned context is empty or a single
formatted result. -/
theorem search_nodes_degrade {R D : Type}
    (queryGen : List Msg → Except String String)
    (webSearch : String → Except String R) (webFormat : R → Except String String)
    (wikiSearch : String → Except String D) (wikiFormat : D → Except String String)
    (ms : List Msg) :
    ((∃ e, queryGen ms = .error e) ∨
      (∃ q e, queryGen ms = .ok q ∧ webSearch q = .error e) ∨
      (∃ q r e, queryGen ms = .ok q ∧ webSearch q = .ok r ∧
        webFormat r = .error e) →
      search_web_node queryGen webSearch webFormat ms = []) ∧
    ((∃ e, queryGen ms = .error e) ∨
      (∃ q e, queryGen ms = .ok q ∧ wikiSearch q = .error e) ∨
      (∃ q d e, queryGen ms = .ok q ∧ wikiSearch q = .ok d ∧
        wikiFormat d = .error e) →
      search_wikipedia_node queryGen wikiSearch wikiFormat ms = []) ∧
    (search_web_node queryGen webSearch webFormat ms = [] ∨
      ∃ f, search_web_node queryGen webSearch webFormat ms = [f]) ∧
    (search_wikipedia_node queryGen wikiSearch wikiFormat ms = [] ∨
      ∃ f, search_wikipedia_node queryGen wikiSearch wikiFormat ms = [f]) := by
  refine ⟨?_, ?_, ?_, ?_⟩
  · exact search_web_node_fail queryGen webSearch webFormat ms
  · intro h
    rw [search_wikipedia_eq_web]
    exact search_web_node_fail queryGen wikiSearch wikiFormat ms h
  · exact search_web_node_shape queryGen webSearch webFormat ms
  · rw [search_wikipedia_eq_web]
    exact search_web_node_shape queryGen wikiSearch wikiFormat ms

/-- Claim C7, witness: both search nodes return an empty context when the
query generator raises. -/
theorem search_nodes_degrade_witness :
    search_web_node (fun _ => Except.error "outage")
      (fun _ => Except.ok ()) (fun _ => Except.ok "doc") [Msg.human "q"] = [] ∧
    search_wikipedia_node (fun _ => Except.error "outage")
      (fun _ => Except.ok ()) (fun _ => Except.ok "doc") [Msg.human "q"] = [] := by
  have h := @search_nodes_degrade Unit Unit (fun _ => Except.error "outage")
    (fun _ => Except.ok ()) (fun _ => Except.ok "doc")
    (fun _ => Except.ok ()) (fun _ => Except.ok "doc") [Msg.human "q"]
  exact ⟨h.1 (Or.inl ⟨"outage", rfl⟩), h.2.1 (Or.inl ⟨"outage", rfl⟩)⟩

/-- Claim C8: for a valid input state (non-empty topic, max_analysts between
1 and 10), create_analysts fails with an analyst-creation error when the
generator returns zero personas, and otherwise returns the first
max_analysts generated personas, so the result never exceeds
max_analysts. -/
theorem create_analysts_bounds (topic : String) (maxAnalysts : Int)
    (generated : List Analyst)
    (htopic : topic ≠ "") (hmin : 1 ≤ maxAnalysts) (hmax : maxAnalysts ≤ 10) :
    (generated = [] → ∃ e, create_analysts topic maxAnalysts generated = .error e) ∧
    (generated ≠ [] →
      create_analysts topic maxAnalysts generated =
        .ok (generated.take maxAnalysts.toNat) ∧
      ∀ l, create_analysts topic maxAnalysts generated = .ok l →
        l.length ≤ maxAnalysts.toNat) := by
  have h0 : ¬maxAnalysts = 0 := by omega
  have hrange : ¬(maxAnalysts < 1 ∨ maxAnalysts > 10) := by omega
  constructor
  · intro hgen
    subst hgen
    exact ⟨"Analyst creation failed: LLM returned empty analyst list",
      by simp [create_analysts, htopic, h0, hrange]⟩
  · intro hgen
    have hne : generated.isEmpty = false := isEmpty_false_of_ne_nil hgen
    have hmain : create_analysts topic maxAnalysts generated =
        .ok (generated.take maxAnalysts.toNat) := by
      by_cases hover : generated.length > maxAnalysts.toNat
      · simp [create_analysts, htopic, h0, hrange, hne, hover]
      · have hle : generated.length ≤ maxAnalysts.toNat := Nat.le_of_not_lt hover
        simp [create_analysts, htopic, h0, hrange, hne, hover,
          List.take_of_length_le hle]
    refine ⟨hmain, ?_⟩
    intro l hl
    rw [hmain] at hl
    injection hl with hl
    rw [← hl, List.length_take]
    exact Nat.min_le_left _ _

/-- Claim C8, witness: truncation of three generated personas to
max_analysts = 2, and failure on an empty generation. -/
theorem create_analysts_bounds_witness :
    create_analysts "AI" 2
      [⟨"a", "r", "f1", "d"⟩, ⟨"b", "r", "f1", "d"⟩, ⟨"c", "r", "f1", "d"⟩] =
      .ok [⟨"a", "r", "f1", "d"⟩, ⟨"b", "r", "f1", "d"⟩] ∧
    (∃ e, create_analysts "AI" 2 [] = .error e) := by
  have h1 := create_analysts_bounds "AI" 2
    [⟨"a", "r", "f1", "d"⟩, ⟨"b", "r", "f1", "d"⟩, ⟨"c", "r", "f1", "d"⟩]
    (by decide) (by decide) (by decide)
  have h2 := create_analysts_bounds "AI" 2 [] (by decide) (by decide) (by decide)
  refine ⟨?_, h2.1 rfl⟩
  rw [(h1.2 (by decide)).1]
  rfl

theorem numExpert_cycle (ms : List Msg) (qa : String × String) :
    numExpertResponses "expert" (interviewCycle ms qa) =
      numExpertResponses "expert" ms + 1 := by
  simp [interviewCycle, numExpertResponses, List.filter_append, questionMsg,
    expertAnswerMsg, isExpertMsg]

theorem numExpert_runCycles (script : List (String × String)) : ∀ ms : List Msg,
    numExpertResponses "expert" (runInterviewCycles ms script) =
      numExpertResponses "expert" ms + script.length := by
  induction script with
  | nil => intro ms; rfl
  | cons qa t ih =>
    intro ms
    have : runInterviewCycles ms (qa :: t) =
        runInterviewCycles (interviewCycle ms qa) t := rfl
    rw [this, ih (interviewCycle ms qa), numExpert_cycle]
    simp
    omega

theorem route_save_of_le (ms : List Msg) (T : Nat)
    (h : T ≤ numExpertResponses "expert" ms) :
    route_messages ms T "expert" = "save_interview" := by
  unfold route_messages
  by_cases hc : lastConcluded ms = true
  · rw [if_pos hc]
  · rw [if_neg hc, if_neg (Nat.not_lt.mpr h)]

/-- Claim C9: each ask-question/answer-question cycle adds exactly one
expert-tagged message, route_messages concludes with save_interview as soon
as the expert count reaches max_num_turns, and therefore, for every script
of question and answer contents, an interview started with no expert
messages reaches the save_interview routing decision within at most T+1
cycles (in fact within T). -/
theorem interview_termination (T : Nat) (_hT : 1 ≤ T) (ms0 : List Msg)
    (h0 : numExpertResponses "expert" ms0 = 0)
    (script : List (String × String)) (hlen : T ≤ script.length) :
    (∀ ms qa, numExpertResponses "expert" (interviewCycle ms qa) =
      numExpertResponses "expert" ms + 1) ∧
    (∀ ms, T ≤ numExpertResponses "expert" ms →
      route_messages ms T "expert" = "save_interview") ∧
    (∃ j, j ≤ T + 1 ∧
      route_messages (runInterviewCycles ms0 (script.take j)) T "expert" =
        "save_interview") := by
  refine ⟨numExpert_cycle, fun ms h => route_save_of_le ms T h, ⟨T, Nat.le_succ T, ?_⟩⟩
  apply route_save_of_le
  rw [numExpert_runCycles, h0, List.length_take]
  omega

/-- Claim C9, witness: the termination theorem at a one-turn interview with
a concrete script. -/
theorem interview_termination_witness :
    ∃ j, j ≤ 2 ∧
      route_messages (runInterviewCycles [Msg.human "start"]
        ([("q1", "a1")].take j)) 1 "expert" = "save_interview" := by
  obtain ⟨-, -, h⟩ := interview_termination 1 (by decide) [Msg.human "start"] rfl
    [("q1", "a1")] (by decide)
  exact h
